import Mathlib

/-!
Shallow embedding of `Algorithm.Python/FineFundamentalDataRegressionAlgorithm.py`,
a regression algorithm that adds fine fundamental data as a custom data source,
makes a history request using it, and trades on the cached fine record's
one-year equity-per-share growth ratio.

Host-owned entities (symbols, slices, the security cache, the portfolio
invested query, the history result) are modelled as inputs supplied by the
environment; the script's own behaviour (its attribute state, the directives
it issues, the errors it raises) is modelled exactly as the Python source
computes it.
-/

namespace FineFundamentalData

/-- A host instrument identifier (opaque to the script; compared by equality). -/
structure Symbol where
  id : String
deriving DecidableEq, Repr

/-- A fine-fundamental key symbol: carries an `Underlying` equity symbol. -/
structure FineSymbol where
  Underlying : Symbol
deriving DecidableEq, Repr

/-- The nested `EquityPerShareGrowth` ratios of a fine record. -/
structure EquityPerShareGrowth where
  OneYear : ℚ
deriving DecidableEq, Repr

/-- The `EarningRatios` group of a fine record. -/
structure EarningRatios where
  EquityPerShareGrowth : EquityPerShareGrowth
deriving DecidableEq, Repr

/-- A fine-fundamental data record (only the fields the script reads). -/
structure FineFundamental where
  EarningRatios : EarningRatios
deriving DecidableEq, Repr

/-- The fine-fundamental portion of a delivered slice: a keyed collection,
represented by its list of keys (the script only reads `Count` and `Keys`). -/
structure FineFundamentalCollection where
  Keys : List FineSymbol
deriving DecidableEq, Repr

/-- `Count` of the keyed collection: the number of entries. -/
def FineFundamentalCollection.Count (c : FineFundamentalCollection) : Nat :=
  c.Keys.length

/-- A delivered data slice; `Get` extracts the fine-fundamental collection,
mirroring `data.Get(FineFundamental)`. -/
structure Slice where
  fineFundamental : FineFundamentalCollection
deriving DecidableEq, Repr

/-- `data.Get(FineFundamental)` on a slice. -/
def Slice.Get (s : Slice) : FineFundamentalCollection :=
  s.fineFundamental

/-- A security handle as returned by `AddEquity` / `AddData`. -/
structure Security where
  Symbol : Symbol
deriving DecidableEq, Repr

/-- Bar resolutions of the host platform. -/
inductive Resolution where
  | Tick
  | Second
  | Minute
  | Hour
  | Daily
deriving DecidableEq, Repr

/-- Python errors the script can raise. Reading a never-assigned instance
attribute raises `attributeError`; an explicit `raise ValueError(msg)` is
`valueError msg`. -/
inductive PyError where
  | valueError (msg : String)
  | attributeError (attr : String)
deriving DecidableEq, Repr

/-- A portfolio directive issued by the script (`SetHoldings(ticker, fraction)`). -/
inductive Directive where
  | setHoldings (ticker : String) (fraction : ℚ)
deriving DecidableEq, Repr

/-- The script's instance-attribute state. `gotFineData = none` models the
Python attribute `_gotFineData` never having been assigned (reading it then
raises AttributeError); `some b` models the attribute holding boolean `b`. -/
structure AlgoState where
  gotFineData : Option Bool
deriving DecidableEq, Repr

/-- Host-supplied context of one `OnData` call: the delivered slice, the value
of `self.Portfolio.Invested` at that moment, and the result of
`self._aaplSecurity.Cache.GetData(FineFundamental)` at that moment. -/
structure OnDataEvent where
  data : Slice
  Invested : Bool
  cachedFine : Option FineFundamental
deriving DecidableEq, Repr

/-- Host responses consumed by `Initialize`: the security returned by
`AddEquity("AAPL", Resolution.Minute)`, the subscription returned by
`AddData(FineFundamental, ...)`, and the records returned by
`History(FineFundamental, fine.Symbol, 10)`. -/
structure InitEnv where
  aaplEquity : Security
  fineSubscription : Security
  historyResult : List FineFundamental
deriving DecidableEq, Repr

/-- Observable setup calls made by `Initialize`, in order. -/
inductive SetupAction where
  | setStartDate (y m d : Nat)
  | setEndDate (y m d : Nat)
  | addEquity (ticker : String) (resolution : Resolution)
  | addData (dataType : String) (sym : Symbol)
  | history (dataType : String) (sym : Symbol) (periods : Nat)
deriving DecidableEq, Repr

/-- `Initialize`: sets the 2014-06-05 to 2014-06-10 date range, subscribes
AAPL minute bars, subscribes FineFundamental on the equity's symbol, issues
one synchronous history request for 10 FineFundamental records on the fine
subscription's symbol, and raises
`ValueError("Did not get any historical fine data!")` when that history is
empty. Returns the trace of setup calls, and on success the initial attribute
state (note: `_gotFineData` is never assigned here) and the stored
`_aaplSecurity`. -/
def Initialize (env : InitEnv) : List SetupAction × Except PyError (AlgoState × Security) :=
  let trace : List SetupAction :=
    [SetupAction.setStartDate 2014 6 5,
     SetupAction.setEndDate 2014 6 10,
     SetupAction.addEquity "AAPL" Resolution.Minute,
     SetupAction.addData "FineFundamental" env.aaplEquity.Symbol,
     SetupAction.history "FineFundamental" env.fineSubscription.Symbol 10]
  if (env.historyResult.length = 0) then
    (trace, Except.error (PyError.valueError "Did not get any historical fine data!"))
  else
    (trace, Except.ok ({ gotFineData := none }, env.aaplEquity))

/-- `OnData`: sets `_gotFineData = True` when the slice's fine collection is
nonempty and contains a key whose `Underlying` is the subscribed symbol; then,
when the portfolio is not invested and the cached fine record exists with
one-year equity-per-share growth strictly above 0.01, issues
`SetHoldings("AAPL", 1)`. Returns the new state and the directives issued on
this call. -/
def OnData (self : AlgoState) (aaplSymbol : Symbol) (ev : OnDataEvent) :
    AlgoState × List Directive :=
  let fine := Slice.Get ev.data
  let self1 :=
    if fine.Count > 0 ∧ aaplSymbol ∈ fine.Keys.map (fun fineSymbol => fineSymbol.Underlying)
    then { self with gotFineData := some true }
    else self
  if ev.Invested = false then
    match ev.cachedFine with
    | some cachedFine =>
        if (0.01 : ℚ) < cachedFine.EarningRatios.EquityPerShareGrowth.OneYear then
          (self1, [Directive.setHoldings "AAPL" 1])
        else (self1, [])
    | none => (self1, [])
  else (self1, [])

/-- `OnEndOfAlgorithm`: reads `self._gotFineData` unconditionally. If the
attribute was never assigned this read itself raises AttributeError; if it
holds a falsy value the script raises
`ValueError("Did not get any fine data in OnData!")`; otherwise it returns. -/
def OnEndOfAlgorithm (self : AlgoState) : Except PyError Unit :=
  match self.gotFineData with
  | none => Except.error (PyError.attributeError "_gotFineData")
  | some b =>
      if b = false then Except.error (PyError.valueError "Did not get any fine data in OnData!")
      else Except.ok ()

/-- Fold `OnData` over a chronological list of events, collecting directives. -/
def runEvents (aaplSymbol : Symbol) (self : AlgoState) :
    List OnDataEvent → AlgoState × List Directive
  | [] => (self, [])
  | ev :: rest =>
      let r := OnData self aaplSymbol ev
      let r2 := runEvents aaplSymbol r.1 rest
      (r2.1, r.2 ++ r2.2)

/-- A full run: `Initialize`, then the chronological `OnData` events, then
`OnEndOfAlgorithm`. Yields the setup trace, the directives issued, and the
final outcome (an error from `Initialize` aborts the run before any event). -/
def runAlgorithm (env : InitEnv) (events : List OnDataEvent) :
    List SetupAction × List Directive × Except PyError Unit :=
  let ir := Initialize env
  match ir.2 with
  | Except.error e => (ir.1, [], Except.error e)
  | Except.ok (st, sec) =>
      let r := runEvents sec.Symbol st events
      (ir.1, r.2, OnEndOfAlgorithm r.1)

/-- The condition under which an `OnData` call sets `_gotFineData`: the
slice's fine collection is nonempty and some key's underlying equity is the
subscribed symbol. -/
def finePresent (aaplSymbol : Symbol) (ev : OnDataEvent) : Bool :=
  decide ((Slice.Get ev.data).Count > 0) &&
    decide (aaplSymbol ∈ (Slice.Get ev.data).Keys.map (fun fineSymbol => fineSymbol.Underlying))

/-- The condition under which an `OnData` call (with the portfolio not
invested) allocates: the cached fine record exists and its one-year
equity-per-share growth ratio is strictly greater than 0.01. -/
def ratioAbove (cached : Option FineFundamental) : Bool :=
  match cached with
  | some f => decide ((0.01 : ℚ) < f.EarningRatios.EquityPerShareGrowth.OneYear)
  | none => false

lemma finePresent_iff (aaplSymbol : Symbol) (ev : OnDataEvent) :
    finePresent aaplSymbol ev = true ↔
      (Slice.Get ev.data).Count > 0 ∧
        aaplSymbol ∈ (Slice.Get ev.data).Keys.map (fun fineSymbol => fineSymbol.Underlying) := by
  simp [finePresent]

/-- The state produced by one `OnData` call: the flag is set to `true` when
the slice carries matching fine data, and left unchanged otherwise. -/
lemma OnData_fst (self : AlgoState) (aaplSymbol : Symbol) (ev : OnDataEvent) :
    (OnData self aaplSymbol ev).1 =
      if finePresent aaplSymbol ev then { self with gotFineData := some true } else self := by
  unfold OnData
  rcases hfp : finePresent aaplSymbol ev with _ | _
  · have h : ¬ ((Slice.Get ev.data).Count > 0 ∧
        aaplSymbol ∈ (Slice.Get ev.data).Keys.map (fun fineSymbol => fineSymbol.Underlying)) := by
      intro hc
      exact absurd ((finePresent_iff aaplSymbol ev).mpr hc) (by simp [hfp])
    simp only [if_neg h]
    rcases ev.Invested with _ | _ <;> rcases ev.cachedFine with _ | f <;>
      simp <;> split <;> rfl
  · have h : (Slice.Get ev.data).Count > 0 ∧
        aaplSymbol ∈ (Slice.Get ev.data).Keys.map (fun fineSymbol => fineSymbol.Underlying) :=
      (finePresent_iff aaplSymbol ev).mp hfp
    simp only [if_pos h]
    rcases ev.Invested with _ | _ <;> rcases ev.cachedFine with _ | f <;>
      simp <;> split <;> rfl

/-- The directives issued by one `OnData` call: exactly one
`SetHoldings("AAPL", 1)` when not invested and the cached ratio condition
holds, nothing otherwise; independent of the flag state and of the slice. -/
lemma OnData_snd (self : AlgoState) (aaplSymbol : Symbol) (ev : OnDataEvent) :
    (OnData self aaplSymbol ev).2 =
      if ev.Invested = false ∧ ratioAbove ev.cachedFine = true
      then [Directive.setHoldings "AAPL" 1] else [] := by
  unfold OnData
  rcases hInv : ev.Invested with _ | _ <;>
    rcases hc : ev.cachedFine with _ | f <;>
      simp [ratioAbove, hInv, hc] <;> split <;> simp_all

lemma ratioAbove_iff (cached : Option FineFundamental) :
    ratioAbove cached = true ↔
      ∃ f, cached = some f ∧ (0.01 : ℚ) < f.EarningRatios.EquityPerShareGrowth.OneYear := by
  cases cached <;> simp [ratioAbove]

/-- The flag after folding `OnData` over a list of events: `some true` as soon
as some event carried matching fine data, otherwise whatever it was before. -/
lemma runEvents_fst_flag (aaplSymbol : Symbol) (s : AlgoState) (events : List OnDataEvent) :
    (runEvents aaplSymbol s events).1.gotFineData =
      if events.any (finePresent aaplSymbol) then some true else s.gotFineData := by
  induction events generalizing s with
  | nil => simp [runEvents]
  | cons ev rest ih =>
      have hstep : (runEvents aaplSymbol s (ev :: rest)).1 =
          (runEvents aaplSymbol (OnData s aaplSymbol ev).1 rest).1 := rfl
      rw [hstep, ih, OnData_fst]
      by_cases hfp : finePresent aaplSymbol ev = true <;>
        by_cases hr : rest.any (finePresent aaplSymbol) = true <;>
          simp [hfp, hr]

/-- The outcome of `Initialize`, as a conditional on the history length. -/
lemma Initialize_snd (env : InitEnv) :
    (Initialize env).2 =
      if env.historyResult.length = 0
      then Except.error (PyError.valueError "Did not get any historical fine data!")
      else Except.ok ({ gotFineData := none }, env.aaplEquity) := by
  unfold Initialize
  split <;> rfl

/-- When the history is nonempty, a full run is the event fold started from
the uninitialized attribute state, followed by `OnEndOfAlgorithm`. -/
lemma runAlgorithm_ok (env : InitEnv) (events : List OnDataEvent)
    (hh : env.historyResult.length ≠ 0) :
    runAlgorithm env events =
      ((Initialize env).1,
       (runEvents env.aaplEquity.Symbol { gotFineData := none } events).2,
       OnEndOfAlgorithm (runEvents env.aaplEquity.Symbol { gotFineData := none } events).1) := by
  simp only [runAlgorithm, Initialize_snd, if_neg hh]

lemma OnEndOfAlgorithm_eq_none {s : AlgoState} (h : s.gotFineData = none) :
    OnEndOfAlgorithm s = Except.error (PyError.attributeError "_gotFineData") := by
  cases s
  simp_all [OnEndOfAlgorithm]

lemma OnEndOfAlgorithm_eq_true {s : AlgoState} (h : s.gotFineData = some true) :
    OnEndOfAlgorithm s = Except.ok () := by
  cases s
  simp_all [OnEndOfAlgorithm]

/-- The AAPL equity symbol used in the concrete scenarios below. -/
def sampleSymbol : Symbol :=
  { id := "AAPL" }

/-- The uninitialized attribute state (no `_gotFineData` assigned yet). -/
def sampleState : AlgoState :=
  { gotFineData := none }

/-- A fine record with the given one-year equity-per-share growth ratio. -/
def sampleFine (r : ℚ) : FineFundamental :=
  { EarningRatios := { EquityPerShareGrowth := { OneYear := r } } }

/-- A host environment whose history request returns one record. -/
def sampleEnv : InitEnv :=
  { aaplEquity := { Symbol := sampleSymbol },
    fineSubscription := { Symbol := { id := "AAPL.FineFundamental" } },
    historyResult := [sampleFine 1] }

/-- An event whose slice carries no fine data at all, with no position open
and an empty cache. -/
def noFineEvent : OnDataEvent :=
  { data := { fineFundamental := { Keys := [] } },
    Invested := false,
    cachedFine := none }

/-- An event whose slice carries one fine entry for AAPL, with no position
open and a cached record whose ratio is 0.02. -/
def matchEvent : OnDataEvent :=
  { data := { fineFundamental := { Keys := [{ Underlying := sampleSymbol }] } },
    Invested := false,
    cachedFine := some (sampleFine 0.02) }

/-- An event with no position open and a cached record whose ratio is exactly
the 0.01 boundary. -/
def boundaryEvent : OnDataEvent :=
  { data := { fineFundamental := { Keys := [{ Underlying := sampleSymbol }] } },
    Invested := false,
    cachedFine := some (sampleFine 0.01) }

/-- An event during which the portfolio is already invested, with a cached
record whose ratio is far above the threshold. -/
def investedEvent : OnDataEvent :=
  { data := { fineFundamental := { Keys := [{ Underlying := sampleSymbol }] } },
    Invested := true,
    cachedFine := some (sampleFine 1) }

/-- C2: `Initialize` raises `ValueError("Did not get any historical fine
data!")` exactly when the synchronous history query for FineFundamental
records returns an empty result; with at least one record it completes,
returning the uninitialized state and the stored security. -/
theorem Initialize_raises_iff_empty_history (env : InitEnv) :
    ((Initialize env).2 =
        Except.error (PyError.valueError "Did not get any historical fine data!") ↔
      env.historyResult.length = 0) ∧
    ((Initialize env).2 = Except.ok ({ gotFineData := none }, env.aaplEquity) ↔
      env.historyResult.length ≠ 0) := by
  rw [Initialize_snd]
  by_cases h : env.historyResult.length = 0 <;> simp [h]

/-- C9: `Initialize` performs exactly these setup calls in order: start date
2014-06-05, end date 2014-06-10, AAPL equity at minute resolution,
FineFundamental subscription on the equity's symbol, and one history query
for 10 FineFundamental records on the fine subscription's symbol. -/
theorem Initialize_setup_sequence (env : InitEnv) :
    (Initialize env).1 =
      [SetupAction.setStartDate 2014 6 5,
       SetupAction.setEndDate 2014 6 10,
       SetupAction.addEquity "AAPL" Resolution.Minute,
       SetupAction.addData "FineFundamental" env.aaplEquity.Symbol,
       SetupAction.history "FineFundamental" env.fineSubscription.Symbol 10] := by
  unfold Initialize
  split <;> rfl

/-- C3: on an `OnData` event with the portfolio not invested, exactly one
`SetHoldings("AAPL", 1)` directive is issued iff the cached fine record
exists with one-year equity-per-share growth strictly above 0.01; otherwise
no directive is issued. -/
theorem OnData_allocates_iff (self : AlgoState) (aaplSymbol : Symbol) (ev : OnDataEvent)
    (h : ev.Invested = false) :
    ((OnData self aaplSymbol ev).2 = [Directive.setHoldings "AAPL" 1] ↔
      ∃ f, ev.cachedFine = some f ∧
        (0.01 : ℚ) < f.EarningRatios.EquityPerShareGrowth.OneYear) ∧
    ((¬ ∃ f, ev.cachedFine = some f ∧
        (0.01 : ℚ) < f.EarningRatios.EquityPerShareGrowth.OneYear) →
      (OnData self aaplSymbol ev).2 = []) := by
  rw [OnData_snd]
  by_cases hr : ratioAbove ev.cachedFine = true
  · simp [h, hr, (ratioAbove_iff ev.cachedFine).mp hr]
  · have hnot : ¬ ∃ f, ev.cachedFine = some f ∧
        (0.01 : ℚ) < f.EarningRatios.EquityPerShareGrowth.OneYear := by
      intro hc
      exact hr ((ratioAbove_iff ev.cachedFine).mpr hc)
    simp [h, hr, hnot]

theorem OnData_allocates_iff_witness :
    matchEvent.Invested = false ∧
    (((OnData sampleState sampleSymbol matchEvent).2 = [Directive.setHoldings "AAPL" 1] ↔
        ∃ f, matchEvent.cachedFine = some f ∧
          (0.01 : ℚ) < f.EarningRatios.EquityPerShareGrowth.OneYear) ∧
      ((¬ ∃ f, matchEvent.cachedFine = some f ∧
          (0.01 : ℚ) < f.EarningRatios.EquityPerShareGrowth.OneYear) →
        (OnData sampleState sampleSymbol matchEvent).2 = [])) :=
  ⟨rfl, OnData_allocates_iff sampleState sampleSymbol matchEvent rfl⟩

/-- C4: on any `OnData` event whose cached fine record has a one-year
equity-per-share growth ratio of exactly 0.01, no `SetHoldings` directive is
issued: the threshold comparison is strict. -/
theorem OnData_boundary_ratio_no_allocation (self : AlgoState) (aaplSymbol : Symbol)
    (ev : OnDataEvent) (f : FineFundamental)
    (hc : ev.cachedFine = some f)
    (hr : f.EarningRatios.EquityPerShareGrowth.OneYear = (0.01 : ℚ)) :
    (OnData self aaplSymbol ev).2 = [] := by
  rw [OnData_snd]
  simp [ratioAbove, hc, hr]

theorem OnData_boundary_ratio_no_allocation_witness :
    boundaryEvent.cachedFine = some (sampleFine 0.01) ∧
    (sampleFine 0.01).EarningRatios.EquityPerShareGrowth.OneYear = (0.01 : ℚ) ∧
    (OnData sampleState sampleSymbol boundaryEvent).2 = [] :=
  ⟨rfl, rfl,
    OnData_boundary_ratio_no_allocation sampleState sampleSymbol boundaryEvent
      (sampleFine 0.01) rfl rfl⟩

/-- C5: on any `OnData` event during which the portfolio is invested, no
`SetHoldings` directive is issued, whatever the cached record or ratio; and
the directives of an `OnData` call never depend on the script's internal
flag state. -/
theorem OnData_invested_suppresses (self : AlgoState) (aaplSymbol : Symbol)
    (ev : OnDataEvent) (h : ev.Invested = true) :
    (OnData self aaplSymbol ev).2 = [] ∧
    ∀ s1 s2 : AlgoState, (OnData s1 aaplSymbol ev).2 = (OnData s2 aaplSymbol ev).2 := by
  refine ⟨?_, ?_⟩
  · rw [OnData_snd]
    simp [h]
  · intro s1 s2
    rw [OnData_snd, OnData_snd]

theorem OnData_invested_suppresses_witness :
    investedEvent.Invested = true ∧
    ((OnData sampleState sampleSymbol investedEvent).2 = [] ∧
      ∀ s1 s2 : AlgoState,
        (OnData s1 sampleSymbol investedEvent).2 = (OnData s2 sampleSymbol investedEvent).2) :=
  ⟨rfl, OnData_invested_suppresses sampleState sampleSymbol investedEvent rfl⟩

/-- C6: one `OnData` call sets the flag to `true` exactly when the slice's
fine-fundamental collection contains an entry whose key's underlying equity
is the subscribed symbol, and leaves the flag unchanged otherwise. -/
theorem OnData_flag_set_iff_matching_entry (self : AlgoState) (aaplSymbol : Symbol)
    (ev : OnDataEvent) :
    (OnData self aaplSymbol ev).1.gotFineData =
      if aaplSymbol ∈ (Slice.Get ev.data).Keys.map (fun fineSymbol => fineSymbol.Underlying)
      then some true else self.gotFineData := by
  rw [OnData_fst]
  by_cases hm : aaplSymbol ∈
      (Slice.Get ev.data).Keys.map (fun fineSymbol => fineSymbol.Underlying)
  · have hpos : (Slice.Get ev.data).Count > 0 := by
      rcases List.mem_map.mp hm with ⟨k, hk, _⟩
      exact List.length_pos.mpr (List.ne_nil_of_mem hk)
    have hfp : finePresent aaplSymbol ev = true :=
      (finePresent_iff aaplSymbol ev).mpr ⟨hpos, hm⟩
    simp [hfp, hm]
  · have hfp : finePresent aaplSymbol ev ≠ true := by
      intro hc
      exact hm ((finePresent_iff aaplSymbol ev).mp hc).2
    simp [hfp, hm]

/-- C1 counterexample: in a run where the flag was never set (one event with
no fine data), `OnEndOfAlgorithm` fails with an AttributeError on the
never-assigned `_gotFineData` attribute, which is not the
`ValueError("Did not get any fine data in OnData!")` signalling "no streaming
fine data observed". -/
theorem OnEnd_attributeError_counterexample :
    (runEvents sampleSymbol sampleState [noFineEvent]).1.gotFineData = none ∧
    (runAlgorithm sampleEnv [noFineEvent]).2.2 =
      Except.error (PyError.attributeError "_gotFineData") ∧
    PyError.attributeError "_gotFineData" ≠
      PyError.valueError "Did not get any fine data in OnData!" := by
  exact ⟨rfl, rfl, by decide⟩

/-- C1 amended: in a run whose history query succeeds, `OnEndOfAlgorithm`
completes without error iff some `OnData` event set the flag; when the flag
was never set, the failure is an AttributeError from reading the
never-assigned `_gotFineData` attribute, not the explicit ValueError. -/
theorem OnEnd_fails_iff_flag_never_set (env : InitEnv) (events : List OnDataEvent)
    (hh : env.historyResult.length ≠ 0) :
    ((runAlgorithm env events).2.2 = Except.ok () ↔
      events.any (finePresent env.aaplEquity.Symbol) = true) ∧
    (events.any (finePresent env.aaplEquity.Symbol) = false →
      (runAlgorithm env events).2.2 =
        Except.error (PyError.attributeError "_gotFineData")) := by
  rw [runAlgorithm_ok env events hh]
  have hflag := runEvents_fst_flag env.aaplEquity.Symbol { gotFineData := none } events
  by_cases ha : events.any (finePresent env.aaplEquity.Symbol) = true
  · rw [if_pos ha] at hflag
    rw [OnEndOfAlgorithm_eq_true hflag]
    simp [ha]
  · have ha' : events.any (finePresent env.aaplEquity.Symbol) = false := by
      simpa using ha
    rw [if_neg ha] at hflag
    rw [OnEndOfAlgorithm_eq_none hflag]
    simp [ha']

theorem OnEnd_fails_iff_flag_never_set_witness :
    sampleEnv.historyResult.length ≠ 0 ∧
    (((runAlgorithm sampleEnv [matchEvent]).2.2 = Except.ok () ↔
        List.any [matchEvent] (finePresent sampleEnv.aaplEquity.Symbol) = true) ∧
      (List.any [matchEvent] (finePresent sampleEnv.aaplEquity.Symbol) = false →
        (runAlgorithm sampleEnv [matchEvent]).2.2 =
          Except.error (PyError.attributeError "_gotFineData"))) :=
  ⟨by decide, OnEnd_fails_iff_flag_never_set sampleEnv [matchEvent] (by decide)⟩

/-- C7: the flag is monotonic: once it holds `true`, it still holds `true`
after any further sequence of `OnData` events, `OnEndOfAlgorithm` then
completes without error, and no single `OnData` call ever moves the flag to
anything but `true` or its previous value. -/
theorem flag_monotonic (aaplSymbol : Symbol) (s : AlgoState) (events : List OnDataEvent)
    (h : s.gotFineData = some true) :
    (runEvents aaplSymbol s events).1.gotFineData = some true ∧
    OnEndOfAlgorithm (runEvents aaplSymbol s events).1 = Except.ok () ∧
    (∀ s1 ev, (OnData s1 aaplSymbol ev).1.gotFineData = some true ∨
      (OnData s1 aaplSymbol ev).1.gotFineData = s1.gotFineData) := by
  have hflag := runEvents_fst_flag aaplSymbol s events
  have h1 : (runEvents aaplSymbol s events).1.gotFineData = some true := by
    rw [hflag]
    split <;> simp [h]
  refine ⟨h1, OnEndOfAlgorithm_eq_true h1, ?_⟩
  intro s1 ev
  rw [OnData_fst]
  by_cases hfp : finePresent aaplSymbol ev = true
  · left
    simp [hfp]
  · right
    simp [hfp]

theorem flag_monotonic_witness :
    ({ gotFineData := some true } : AlgoState).gotFineData = some true ∧
    ((runEvents sampleSymbol { gotFineData := some true } [noFineEvent]).1.gotFineData
        = some true ∧
      OnEndOfAlgorithm (runEvents sampleSymbol { gotFineData := some true } [noFineEvent]).1
        = Except.ok () ∧
      (∀ s1 ev, (OnData s1 sampleSymbol ev).1.gotFineData = some true ∨
        (OnData s1 sampleSymbol ev).1.gotFineData = s1.gotFineData)) :=
  ⟨rfl, flag_monotonic sampleSymbol { gotFineData := some true } [noFineEvent] rfl⟩

/-- C8: the script is deterministic: identical host inputs (environment and
event sequence) produce identical full runs, and identical event sequences
produce identical directive sequences and final states from any start. -/
theorem deterministic_replay (env1 env2 : InitEnv) (events1 events2 : List OnDataEvent)
    (henv : env1 = env2) (hev : events1 = events2) :
    runAlgorithm env1 events1 = runAlgorithm env2 events2 ∧
    (∀ aaplSymbol s, runEvents aaplSymbol s events1 = runEvents aaplSymbol s events2) := by
  subst henv
  subst hev
  exact ⟨rfl, fun _ _ => rfl⟩

theorem deterministic_replay_witness :
    sampleEnv = sampleEnv ∧
    (runAlgorithm sampleEnv [matchEvent] = runAlgorithm sampleEnv [matchEvent] ∧
      ∀ aaplSymbol s,
        runEvents aaplSymbol s [matchEvent] = runEvents aaplSymbol s [matchEvent]) :=
  ⟨rfl, deterministic_replay sampleEnv sampleEnv [matchEvent] [matchEvent] rfl rfl⟩

/-- C10: `Initialize` never assigns the flag attribute (a successful
`Initialize` yields `gotFineData = none`), and in a run where no `OnData`
event carried matching fine data, `OnEndOfAlgorithm` fails by the
AttributeError of reading the never-assigned `_gotFineData`, not by the
explicit never-set check. -/
theorem uninitialized_flag_attribute_failure (env : InitEnv) (st : AlgoState)
    (sec : Security) (events : List OnDataEvent)
    (hinit : (Initialize env).2 = Except.ok (st, sec))
    (hnone : events.any (finePresent sec.Symbol) = false) :
    st.gotFineData = none ∧
    OnEndOfAlgorithm (runEvents sec.Symbol st events).1 =
      Except.error (PyError.attributeError "_gotFineData") := by
  rw [Initialize_snd] at hinit
  by_cases hh : env.historyResult.length = 0
  · rw [if_pos hh] at hinit
    simp at hinit
  · rw [if_neg hh] at hinit
    have hpair : ({ gotFineData := none } : AlgoState) = st ∧ env.aaplEquity = sec := by
      simpa using hinit
    have hst : st.gotFineData = none := by
      rw [← hpair.1]
    have hflag := runEvents_fst_flag sec.Symbol st events
    rw [if_neg (by simp [hnone])] at hflag
    rw [hst] at hflag
    exact ⟨hst, OnEndOfAlgorithm_eq_none hflag⟩

theorem uninitialized_flag_attribute_failure_witness :
    (Initialize sampleEnv).2 = Except.ok ({ gotFineData := none }, sampleEnv.aaplEquity) ∧
    List.any [noFineEvent] (finePresent sampleEnv.aaplEquity.Symbol) = false ∧
    (({ gotFineData := none } : AlgoState).gotFineData = none ∧
      OnEndOfAlgorithm
          (runEvents sampleEnv.aaplEquity.Symbol { gotFineData := none } [noFineEvent]).1 =
        Except.error (PyError.attributeError "_gotFineData")) :=
  ⟨rfl, rfl,
    uninitialized_flag_attribute_failure sampleEnv { gotFineData := none }
      sampleEnv.aaplEquity [noFineEvent] rfl rfl⟩

end FineFundamentalData
